import Mathlib

/-!
Icinga 2: zone hierarchy (`lib/remote/zone.cpp`) and TLS client (`base/tlsclient.cpp`)

A shallow embedding of the two translation units.

* Objects live in tables; a `Zone::Ptr` / `Endpoint::Ptr` is an index into the
  table and a null pointer is `none`.  Pointer comparison is index comparison.
* The name registry (`Zone::GetByName`, `Endpoint::GetByName`) is declared
  outside these files; it is the lookup of a name in the table of live objects.
* The `while` loop of `Zone::IsChildOf` takes a fuel argument counting loop
  tests; `none` means that the loop is still running when the fuel is used up.
* The TLS library is external: the value of every library call is an input of
  the embedded function, and every effect on the outside is appended to a log.
  Where two library answers stem from one library state (`SSL_get_error` and
  `SSL_want_write`), `LibraryWantAfter` says how they hang together.
-/

namespace Icinga

/-! ## Zone graph: data model -/

/-- A `Zone::Ptr` that is not null: the index of the zone object. -/
abbrev ZonePtr := Nat

/-- An `Endpoint::Ptr` that is not null: the index of the endpoint object. -/
abbrev EndpointPtr := Nat

/-- Attributes of a `Zone` object that `zone.cpp` reads. -/
structure Zone where
  /-- Registry name of the object. -/
  name : String
  /-- Value of `GetParentRaw()`: the name of the parent zone. -/
  parentRaw : String
  /-- Value of `GetEndpointsRaw()`: the names of the member endpoints. -/
  endpointsRaw : List String
  deriving Repr, DecidableEq

/-- Attributes of an `Endpoint` object: only its registry name matters here. -/
structure Endpoint where
  /-- Registry name of the object. -/
  name : String
  deriving Repr, DecidableEq

/-- The object world that `zone.cpp` queries. -/
structure World where
  /-- All live `Zone` objects. -/
  zones : List Zone
  /-- All live `Endpoint` objects. -/
  endpoints : List Endpoint
  /-- Value of `Endpoint::GetLocalEndpoint()->GetZone()`; both functions are declared
  outside `zone.cpp`, every endpoint belongs to exactly one zone. -/
  localZone : ZonePtr

/-- A `DynamicObject::Ptr` as `Zone::CanAccessObject` sees it: either the object is a
`Zone` (the `dynamic_pointer_cast` succeeds and yields the same pointer), or it is some
other object, of which only `GetZone()`, the name of its zone, is read. -/
inductive DynamicObject where
  | zone (p : ZonePtr)
  | other (zoneAttr : String)
  deriving Repr, DecidableEq

/-- Position of the first occurrence of `n` in a list of registered names. -/
def registryFind : List String → String → Option Nat
  | [], _ => none
  | x :: xs, n => if x = n then some 0 else (registryFind xs n).map (· + 1)

/-- The registry lookup `Zone::GetByName`: null when no zone has that name. -/
def Zone.GetByName (w : World) (name : String) : Option ZonePtr :=
  registryFind (w.zones.map Zone.name) name

/-- The registry lookup `Endpoint::GetByName`: null when no endpoint has that name. -/
def Endpoint.GetByName (w : World) (name : String) : Option EndpointPtr :=
  registryFind (w.endpoints.map Endpoint.name) name

/-! ## Zone graph: operations of `zone.cpp` -/

/-- `Zone::GetParent`: `Zone::GetByName(GetParentRaw())`.  A pointer outside the table
denotes no object and has no parent. -/
def Zone.GetParent (w : World) (self : ZonePtr) : Option ZonePtr :=
  match w.zones[self]? with
  | none => none
  | some z => Zone.GetByName w z.parentRaw

/-- `Zone::GetEndpoints`: every name of `GetEndpointsRaw()` is looked up and the pointer
that the lookup returns is inserted into the result set, `none` being the null pointer. -/
def Zone.GetEndpoints (w : World) (self : ZonePtr) : Finset (Option EndpointPtr) :=
  match w.zones[self]? with
  | none => ∅
  | some z =>
    z.endpointsRaw.foldl (fun result endpoint => insert (Endpoint.GetByName w endpoint) result) ∅

/-- The loop of `Zone::IsChildOf`, with `azone` as loop variable.  One unit of fuel pays
for one evaluation of the loop test `while (azone)`. -/
def Zone.IsChildOfLoop (w : World) (zone : ZonePtr) : Nat → Option ZonePtr → Option Bool
  | 0, _ => none
  | _ + 1, none => some false
  | fuel + 1, some azone =>
    if azone = zone then some true
    else Zone.IsChildOfLoop w zone fuel (Zone.GetParent w azone)

/-- `Zone::IsChildOf`: the loop started at `GetSelf()`. -/
def Zone.IsChildOf (w : World) (fuel : Nat) (self zone : ZonePtr) : Option Bool :=
  Zone.IsChildOfLoop w zone fuel (some self)

/-- `Zone::GetLocalZone`. -/
def Zone.GetLocalZone (w : World) : ZonePtr := w.localZone

/-- `Zone::CanAccessObject`, called on the zone `self`. -/
def Zone.CanAccessObject (w : World) (fuel : Nat) (self : ZonePtr) (object : DynamicObject) :
    Option Bool :=
  let object_zone : Option ZonePtr :=
    match object with
    | .zone p => some p
    | .other zoneAttr => Zone.GetByName w zoneAttr
  let object_zone : ZonePtr :=
    match object_zone with
    | none => Zone.GetLocalZone w
    | some z => z
  Zone.IsChildOf w fuel object_zone self

/-! ## Zone graph: vocabulary of the specification -/

/-- One parent link: `p` is the resolved parent of `a`. -/
def ParentLink (w : World) (a p : ZonePtr) : Prop := Zone.GetParent w a = some p

/-- `z` is `anc` itself or a descendant of `anc`: `anc` is reached from `z` by following
zero or more parent links. -/
def DescendsFrom (w : World) (z anc : ZonePtr) : Prop :=
  Relation.ReflTransGen (ParentLink w) z anc

/-- The parent chains are acyclic: no zone is its own ancestor. -/
def Acyclic (w : World) : Prop := ∀ z, ¬ Relation.TransGen (ParentLink w) z z

/-- The pointer the walk holds after `k` parent steps from `cur`. -/
def chainFrom (w : World) : Nat → Option ZonePtr → Option ZonePtr
  | 0, cur => cur
  | k + 1, cur => chainFrom w k (cur.bind (Zone.GetParent w))

/-- The `k`-th zone visited by the walk that starts at `self`: the candidate, then its
resolved parent, and so on; `none` once the chain has ended. -/
def visited (w : World) (self : ZonePtr) (k : Nat) : Option ZonePtr :=
  chainFrom w k (some self)

/-- The owning zone of an object in the words of the specification: the object itself
when it is a zone, otherwise the zone its zone attribute names, and the local zone when
that name resolves to nothing. -/
def owningZone (w : World) : DynamicObject → ZonePtr
  | .zone p => p
  | .other zoneAttr => (Zone.GetByName w zoneAttr).getD w.localZone

/-- Scenario 1: `global` (no parent), `region-a` (parent `global`), `host-1`
(parent `region-a`). -/
def scenario1 : World where
  zones := [⟨"global", "", []⟩, ⟨"region-a", "global", []⟩, ⟨"host-1", "region-a", []⟩]
  endpoints := []
  localZone := 0

/-- A zone table whose parent chain is a cycle `a → b → a`, next to a zone `t`. -/
def cyclicWorld : World where
  zones := [⟨"a", "b", []⟩, ⟨"b", "a", []⟩, ⟨"t", "", []⟩]
  endpoints := []
  localZone := 2

/-- A zone with two member names of which only `"a"` is a registered endpoint. -/
def ghostWorld : World where
  zones := [⟨"z", "", ["a", "ghost"]⟩]
  endpoints := [⟨"a"⟩]
  localZone := 0

/-! ## TLS client: data model -/

/-- The role of a `TCPClient`. -/
inductive TCPClientRole where
  | RoleInbound
  | RoleOutbound
  deriving Repr, DecidableEq

/-- A handle of an X509 certificate. -/
abbrev X509 := Nat

/-- A `TLSClient *`: the identity of a session object. -/
abbrev ClientPtr := Nat

/-- Value of `SSL_ERROR_WANT_READ` in `<openssl/ssl.h>`. -/
def SSL_ERROR_WANT_READ : Int := 2

/-- Value of `SSL_ERROR_WANT_WRITE` in `<openssl/ssl.h>`. -/
def SSL_ERROR_WANT_WRITE : Int := 3

/-- Value of `SSL_ERROR_SYSCALL` in `<openssl/ssl.h>`. -/
def SSL_ERROR_SYSCALL : Int := 5

/-- Value of `SSL_ERROR_ZERO_RETURN` in `<openssl/ssl.h>`. -/
def SSL_ERROR_ZERO_RETURN : Int := 6

/-- Value of `SSL_VERIFY_PEER | SSL_VERIFY_FAIL_IF_NO_PEER_CERT` in `<openssl/ssl.h>`. -/
def SSL_VERIFY_MODE : Nat := 0x01 ||| 0x02

/-- A protocol context (`SSL *`) as the session sees it: the certificate that
`SSL_get_certificate` returns for it, null when none is configured. -/
structure SSL where
  certificate : Option X509
  deriving Repr, DecidableEq

/-- Everything a member function of `TLSClient` does to the outside, in the order of the
source: calls into the base class `TCPClient`, calls that change the buffers, calls into
the TLS library that act on the protocol context, and the events it raises. -/
inductive Effect where
  | TCPClient_Start
  | SSL_new
  | SSL_get_ex_new_index
  | SSL_set_ex_data (index : Int)
  | SSL_set_verify (mode : Nat)
  | BIO_new_socket (fd : Int)
  | SSL_set_bio
  | SSL_set_accept_state
  | SSL_set_connect_state
  | SSL_do_handshake
  | SSL_read
  | SSL_write
  | RecvQueue_Write (count : Int)
  | SendQueue_Read (count : Int)
  | OnDataAvailable
  | OnError (code : Int) (message : String)
  | SSL_shutdown
  | TCPClient_CloseInternal (from_dtor : Bool)
  deriving Repr, DecidableEq

/-- The exceptions that `TLSClient::Start` throws. -/
inductive Exception where
  | OpenSSLException (message : String) (code : Nat)
  | InvalidArgumentException (message : String)
  deriving Repr, DecidableEq

/-- The members of a `TLSClient` and the log of its effects. -/
structure TLSClient where
  /-- Role handed to the base class, value of `GetRole()`. -/
  role : TCPClientRole
  /-- Handle of the shared `SSL_CTX`. -/
  m_SSLContext : Nat
  /-- The protocol context, null before `Start`. -/
  m_SSL : Option SSL
  m_BlockRead : Bool
  m_BlockWrite : Bool
  /-- Effects so far, oldest first. -/
  log : List Effect
  deriving Repr, DecidableEq

/-- The static members `m_SSLIndex` and `m_SSLIndexInitialized`. -/
structure Statics where
  m_SSLIndex : Int
  m_SSLIndexInitialized : Bool
  deriving Repr, DecidableEq

/-- What the outside returns during one call of `TLSClient::Start`. -/
structure StartEnv where
  /-- Result of `SSL_new(m_SSLContext.get())`, null on failure. -/
  SSL_new : Option SSL
  /-- Result of `ERR_get_error()`. -/
  ERR_get_error : Nat
  /-- Result of `SSL_get_ex_new_index(...)`. -/
  SSL_get_ex_new_index : Int
  /-- Result of `GetFD()`. -/
  GetFD : Int

/-- What the TLS library returns during one readiness callback. -/
structure EngineResult where
  /-- Result of `SSL_read` or `SSL_write`. -/
  rc : Int
  /-- Result of `SSL_get_error(m_SSL.get(), rc)`, asked for when `rc <= 0`. -/
  SSL_get_error : Int
  /-- Result of `ERR_get_error()`, asked for by `HandleSSLError`. -/
  ERR_get_error : Nat

/-- The event argument of `OnVerifyCertificate`. -/
structure VerifyCertificateEventArgs where
  Source : ClientPtr
  ValidCertificate : Bool
  Certificate : Option X509
  deriving Repr, DecidableEq

/-- The `X509_STORE_CTX` handed to the verification callback: `x509Context->cert`. -/
structure X509_STORE_CTX where
  cert : Option X509
  deriving Repr, DecidableEq

/-- One readiness callback together with what the TLS library returns during it. -/
inductive Callback where
  | readable (r : EngineResult)
  | writable (r : EngineResult)

/-- Conversion of the `unsigned long` that `ERR_get_error` returns to the 32-bit `int`
in which `HandleSSLError` stores it. -/
def toInt32 (v : Nat) : Int :=
  if v % 2 ^ 32 < 2 ^ 31 then (v % 2 ^ 32 : Nat) else (v % 2 ^ 32 : Nat) - 2 ^ 32

/-! ## TLS client: operations of `tlsclient.cpp` -/

/-- The constructor `TLSClient::TLSClient`. -/
def TLSClient.new (role : TCPClientRole) (sslContext : Nat) : TLSClient where
  role := role
  m_SSLContext := sslContext
  m_SSL := none
  m_BlockRead := false
  m_BlockWrite := false
  log := []

/-- Appends effects to the log. -/
def TLSClient.emit (c : TLSClient) (es : List Effect) : TLSClient :=
  { c with log := c.log ++ es }

/-- `TLSClient::GetClientCertificate`: the result of `SSL_get_certificate(m_SSL.get())`. -/
def TLSClient.GetClientCertificate (c : TLSClient) : Option X509 :=
  c.m_SSL.bind SSL.certificate

/-- `TLSClient::Start`.  The result is the exception thrown, if any, with the static
members and the session as the call leaves them. -/
def TLSClient.Start (env : StartEnv) (st : Statics) (c : TLSClient) :
    Option Exception × Statics × TLSClient :=
  let c := c.emit [.TCPClient_Start]
  let c := { c with m_SSL := env.SSL_new }.emit [.SSL_new]
  if c.m_SSL = none then
    (some (.OpenSSLException "SSL_new failed" env.ERR_get_error), st, c)
  else if c.GetClientCertificate = none then
    (some (.InvalidArgumentException "No X509 client certificate was specified."), st, c)
  else
    let (st, c) :=
      if !st.m_SSLIndexInitialized then
        (({ m_SSLIndex := env.SSL_get_ex_new_index, m_SSLIndexInitialized := true } : Statics),
          c.emit [.SSL_get_ex_new_index])
      else (st, c)
    let c := c.emit [.SSL_set_ex_data st.m_SSLIndex]
    let c := c.emit [.SSL_set_verify SSL_VERIFY_MODE]
    let c := c.emit [.BIO_new_socket env.GetFD]
    let c := c.emit [.SSL_set_bio]
    let c :=
      if c.role = .RoleInbound then c.emit [.SSL_set_accept_state]
      else c.emit [.SSL_set_connect_state]
    let c := c.emit [.SSL_do_handshake]
    (none, st, c)

/-- `TLSClient::CloseInternal`: `SSL_shutdown`, then the base class. -/
def TLSClient.CloseInternal (from_dtor : Bool) (c : TLSClient) : TLSClient :=
  c.emit [.SSL_shutdown, .TCPClient_CloseInternal from_dtor]

/-- `Close()` of the base class, declared outside `tlsclient.cpp`: it dispatches to the
virtual `CloseInternal(false)`. -/
def TLSClient.Close (c : TLSClient) : TLSClient :=
  c.CloseInternal false

/-- `TLSClient::HandleSSLError`; `format` is `OpenSSLException::FormatErrorCode`, declared
outside `tlsclient.cpp`. -/
def TLSClient.HandleSSLError (format : Int → String) (r : EngineResult) (c : TLSClient) :
    TLSClient :=
  let code : Int := toInt32 r.ERR_get_error
  let c := if code ≠ 0 then c.emit [.OnError code (format code)] else c
  c.Close

/-- `TLSClient::ReadableEventHandler`; the function always returns 0. -/
def TLSClient.ReadableEventHandler (format : Int → String) (r : EngineResult)
    (c : TLSClient) : TLSClient :=
  let c := { c with m_BlockRead := false }
  let c := { c with m_BlockWrite := false }
  let c := c.emit [.SSL_read]
  if r.rc ≤ 0 then
    if r.SSL_get_error = SSL_ERROR_WANT_WRITE then
      { c with m_BlockRead := true }
    else if r.SSL_get_error = SSL_ERROR_WANT_READ then
      c
    else if r.SSL_get_error = SSL_ERROR_ZERO_RETURN then
      c.Close
    else
      c.HandleSSLError format r
  else
    c.emit [.RecvQueue_Write r.rc, .OnDataAvailable]

/-- `TLSClient::WritableEventHandler`; the function always returns 0. -/
def TLSClient.WritableEventHandler (format : Int → String) (r : EngineResult)
    (c : TLSClient) : TLSClient :=
  let c := { c with m_BlockRead := false }
  let c := { c with m_BlockWrite := false }
  let c := c.emit [.SSL_write]
  if r.rc ≤ 0 then
    if r.SSL_get_error = SSL_ERROR_WANT_READ then
      { c with m_BlockWrite := true }
    else if r.SSL_get_error = SSL_ERROR_WANT_WRITE then
      c
    else if r.SSL_get_error = SSL_ERROR_ZERO_RETURN then
      c.Close
    else
      c.HandleSSLError format r
  else
    c.emit [.SendQueue_Read r.rc]

/-- `TLSClient::WantsToRead`; `sslWantRead` is the result of `SSL_want_read(m_SSL.get())`
and `tcpWantsToRead` the result of `TCPClient::WantsToRead()`. -/
def TLSClient.WantsToRead (sslWantRead tcpWantsToRead : Bool) (c : TLSClient) : Bool :=
  if sslWantRead then true
  else if c.m_BlockRead then false
  else tcpWantsToRead

/-- `TLSClient::WantsToWrite`; `sslWantWrite` is the result of
`SSL_want_write(m_SSL.get())` and `tcpWantsToWrite` the result of
`TCPClient::WantsToWrite()`. -/
def TLSClient.WantsToWrite (sslWantWrite tcpWantsToWrite : Bool) (c : TLSClient) : Bool :=
  if sslWantWrite then true
  else if c.m_BlockWrite then false
  else tcpWantsToWrite

/-- `TLSClient::SSLVerifyCertificate`.  `client` is the result of
`SSL_get_ex_data(ssl, m_SSLIndex)`, null when no session is registered for the protocol
context; `observer` is what the handlers of `OnVerifyCertificate` do to the event.  The
result is the returned `int` and the events raised. -/
def TLSClient.SSLVerifyCertificate (client : Option ClientPtr)
    (observer : VerifyCertificateEventArgs → VerifyCertificateEventArgs)
    (ok : Int) (x509Context : X509_STORE_CTX) : Int × List VerifyCertificateEventArgs :=
  match client with
  | none => (0, [])
  | some client =>
    let vcea : VerifyCertificateEventArgs :=
      { Source := client, ValidCertificate := decide (ok ≠ 0), Certificate := x509Context.cert }
    let vcea' := observer vcea
    ((if vcea'.ValidCertificate then 1 else 0), [vcea])

/-- One readiness callback. -/
def TLSClient.step (format : Int → String) (c : TLSClient) : Callback → TLSClient
  | .readable r => c.ReadableEventHandler format r
  | .writable r => c.WritableEventHandler format r

/-- A sequence of readiness callbacks, in order. -/
def TLSClient.run (format : Int → String) (c : TLSClient) (cbs : List Callback) : TLSClient :=
  cbs.foldl (TLSClient.step format) c

/-- Value of `SSL_WRITING` in `<openssl/ssl.h>`, one of the values of `SSL_want(s)`. -/
def SSL_WRITING : Int := 2

/-- The macro `SSL_want_write(s)` of `<openssl/ssl.h>`, `(SSL_want(s) == SSL_WRITING)`;
the argument is the value of `SSL_want(m_SSL.get())`. -/
def SSL_want_write (SSL_want : Int) : Bool := decide (SSL_want = SSL_WRITING)

/-- How the two answers of the TLS library about one failed attempt hang together.
`SSL_want` is the value of `SSL_want(m_SSL.get())` that the attempt `r` leaves and that
lasts until the next attempt.  `SSL_get_error` answers `SSL_ERROR_WANT_WRITE` for a
failed attempt when the attempt stopped because the library has to write first, which
is the state `SSL_WRITING`. -/
def LibraryWantAfter (r : EngineResult) (SSL_want : Int) : Prop :=
  r.rc ≤ 0 → r.SSL_get_error = SSL_ERROR_WANT_WRITE → SSL_want = SSL_WRITING

instance (r : EngineResult) (SSL_want : Int) : Decidable (LibraryWantAfter r SSL_want) := by
  unfold LibraryWantAfter
  infer_instance

/-- A stand-in for `OpenSSLException::FormatErrorCode` in closed examples. -/
def sampleFormat (code : Int) : String := toString code

/-! ## Zone graph: lemmas on the registry and the parent chain -/

theorem registryFind_lt (names : List String) (n : String) (i : Nat)
    (h : registryFind names n = some i) : i < names.length := by
  induction names generalizing i with
  | nil => simp [registryFind] at h
  | cons x xs ih =>
    by_cases hx : x = n
    · simp [registryFind, hx] at h
      subst h
      simp
    · simp only [registryFind, hx, if_false, Option.map_eq_some'] at h
      obtain ⟨j, hj, rfl⟩ := h
      have := ih j hj
      simp only [List.length_cons]
      omega

theorem GetParent_lt (w : World) (a p : ZonePtr) (h : Zone.GetParent w a = some p) :
    p < w.zones.length := by
  unfold Zone.GetParent at h
  split at h
  · simp at h
  · have := registryFind_lt _ _ _ h
    simpa using this

theorem chainFrom_none (w : World) (k : Nat) : chainFrom w k none = none := by
  induction k with
  | zero => rfl
  | succ k ih => simpa [chainFrom] using ih

theorem chainFrom_add (w : World) (i j : Nat) (cur : Option ZonePtr) :
    chainFrom w (i + j) cur = chainFrom w j (chainFrom w i cur) := by
  induction i generalizing cur with
  | zero => simp [chainFrom]
  | succ i ih =>
    have : i + 1 + j = (i + j) + 1 := by omega
    rw [this]
    simp only [chainFrom]
    exact ih _

theorem chainFrom_succ_last (w : World) (k : Nat) (cur : Option ZonePtr) :
    chainFrom w (k + 1) cur = (chainFrom w k cur).bind (Zone.GetParent w) := by
  rw [chainFrom_add w k 1 cur]
  rfl

theorem chainFrom_lt (w : World) (k : Nat) (cur : Option ZonePtr) (p : ZonePtr)
    (h : chainFrom w (k + 1) cur = some p) : p < w.zones.length := by
  rw [chainFrom_succ_last] at h
  cases hc : chainFrom w k cur with
  | none => simp [hc] at h
  | some q =>
    rw [hc] at h
    exact GetParent_lt w q p h

theorem chainFrom_some_of_le (w : World) (i k : Nat) (cur : Option ZonePtr) (p : ZonePtr)
    (hik : i ≤ k) (h : chainFrom w k cur = some p) : ∃ q, chainFrom w i cur = some q := by
  obtain ⟨d, rfl⟩ := Nat.exists_eq_add_of_le hik
  rw [chainFrom_add] at h
  cases hc : chainFrom w i cur with
  | none => rw [hc, chainFrom_none] at h; simp at h
  | some q => exact ⟨q, rfl⟩

/-- Following `k` parent links is the reflexive-transitive closure of one link. -/
theorem descendsFrom_iff_chain (w : World) (z anc : ZonePtr) :
    DescendsFrom w z anc ↔ ∃ k, chainFrom w k (some z) = some anc := by
  constructor
  · intro h
    induction h with
    | refl => exact ⟨0, rfl⟩
    | tail _ hbc ih =>
      obtain ⟨k, hk⟩ := ih
      refine ⟨k + 1, ?_⟩
      rw [chainFrom_succ_last, hk]
      exact hbc
  · rintro ⟨k, hk⟩
    induction k generalizing anc with
    | zero =>
      simp only [chainFrom, Option.some.injEq] at hk
      subst hk
      exact Relation.ReflTransGen.refl
    | succ k ih =>
      rw [chainFrom_succ_last] at hk
      cases hc : chainFrom w k (some z) with
      | none => simp [hc] at hk
      | some q =>
        rw [hc] at hk
        exact Relation.ReflTransGen.tail (ih q hc) hk

theorem transGen_of_chain (w : World) (k : Nat) (z p : ZonePtr)
    (h : chainFrom w (k + 1) (some z) = some p) : Relation.TransGen (ParentLink w) z p := by
  rw [chainFrom_succ_last] at h
  cases hc : chainFrom w k (some z) with
  | none => simp [hc] at h
  | some q =>
    rw [hc] at h
    have hq : DescendsFrom w z q := (descendsFrom_iff_chain w z q).2 ⟨k, hc⟩
    exact Relation.TransGen.tail' hq h

/-! ## Zone graph: what the loop of `IsChildOf` computes -/

theorem loop_true_iff (w : World) (zone : ZonePtr) (fuel : Nat) (cur : Option ZonePtr) :
    Zone.IsChildOfLoop w zone fuel cur = some true ↔
      ∃ k, k < fuel ∧ chainFrom w k cur = some zone := by
  induction fuel generalizing cur with
  | zero => simp [Zone.IsChildOfLoop]
  | succ fuel ih =>
    cases cur with
    | none => simp [Zone.IsChildOfLoop, chainFrom_none]
    | some a =>
      by_cases ha : a = zone
      · subst ha
        simp only [Zone.IsChildOfLoop, if_true, true_iff]
        exact ⟨0, by omega, rfl⟩
      · simp only [Zone.IsChildOfLoop, ha, if_false]
        rw [ih]
        constructor
        · rintro ⟨k, hk, h⟩
          exact ⟨k + 1, by omega, h⟩
        · rintro ⟨k, hk, h⟩
          cases k with
          | zero =>
            simp only [chainFrom, Option.some.injEq] at h
            exact absurd h ha
          | succ k => exact ⟨k, by omega, h⟩

theorem loop_false_iff (w : World) (zone : ZonePtr) (fuel : Nat) (cur : Option ZonePtr) :
    Zone.IsChildOfLoop w zone fuel cur = some false ↔
      (∃ k, k < fuel ∧ chainFrom w k cur = none) ∧ ∀ k, chainFrom w k cur ≠ some zone := by
  induction fuel generalizing cur with
  | zero => simp [Zone.IsChildOfLoop]
  | succ fuel ih =>
    cases cur with
    | none =>
      simp only [Zone.IsChildOfLoop, true_iff]
      exact ⟨⟨0, by omega, rfl⟩, fun k => by simp [chainFrom_none]⟩
    | some a =>
      by_cases ha : a = zone
      · subst ha
        simp only [Zone.IsChildOfLoop, if_true]
        constructor
        · intro h
          simp at h
        · rintro ⟨_, h⟩
          exact absurd rfl (h 0)
      · simp only [Zone.IsChildOfLoop, ha, if_false]
        rw [ih]
        constructor
        · rintro ⟨⟨k, hk, h⟩, hall⟩
          refine ⟨⟨k + 1, by omega, h⟩, fun j => ?_⟩
          cases j with
          | zero =>
            simp only [chainFrom, ne_eq, Option.some.injEq]
            exact ha
          | succ j => exact hall j
        · rintro ⟨⟨k, hk, h⟩, hall⟩
          refine ⟨?_, fun j => hall (j + 1)⟩
          cases k with
          | zero => simp [chainFrom] at h
          | succ k => exact ⟨k, by omega, h⟩

theorem loop_none_iff (w : World) (zone : ZonePtr) (fuel : Nat) (cur : Option ZonePtr) :
    Zone.IsChildOfLoop w zone fuel cur = none ↔
      ∀ k, k < fuel → ∃ p, chainFrom w k cur = some p ∧ p ≠ zone := by
  induction fuel generalizing cur with
  | zero => simp [Zone.IsChildOfLoop]
  | succ fuel ih =>
    cases cur with
    | none =>
      simp only [Zone.IsChildOfLoop, reduceCtorEq, false_iff]
      intro h
      obtain ⟨p, hp, _⟩ := h 0 (by omega)
      simp [chainFrom] at hp
    | some a =>
      by_cases ha : a = zone
      · subst ha
        simp only [Zone.IsChildOfLoop, if_true, reduceCtorEq, false_iff]
        intro h
        obtain ⟨p, hp, hne⟩ := h 0 (by omega)
        simp only [chainFrom, Option.some.injEq] at hp
        exact hne hp.symm
      · simp only [Zone.IsChildOfLoop, ha, if_false]
        rw [ih]
        constructor
        · intro h k hk
          cases k with
          | zero => exact ⟨a, rfl, ha⟩
          | succ k => exact h k (by omega)
        · intro h k hk
          exact h (k + 1) (by omega)

/-- Pigeonhole on the zone table: in an acyclic graph the chain from any pointer ends
after at most `zones.length + 1` parent steps. -/
theorem chain_ends (w : World) (hw : Acyclic w) (cur : Option ZonePtr) :
    ∃ k, k < w.zones.length + 2 ∧ chainFrom w k cur = none := by
  by_contra hcon
  have hall : ∀ k, k < w.zones.length + 2 → ∃ p, chainFrom w k cur = some p := by
    intro k hk
    cases hc : chainFrom w k cur with
    | none => exact absurd ⟨k, hk, hc⟩ hcon
    | some p => exact ⟨p, rfl⟩
  have hbound : ∀ i : Fin (w.zones.length + 1),
      (chainFrom w (i.val + 1) cur).getD 0 < w.zones.length := by
    intro i
    obtain ⟨p, hp⟩ := hall (i.val + 1) (by omega)
    rw [hp]
    exact chainFrom_lt w i.val cur p hp
  let f : Fin (w.zones.length + 1) → Fin w.zones.length :=
    fun i => ⟨(chainFrom w (i.val + 1) cur).getD 0, hbound i⟩
  obtain ⟨i, j, hij, hf⟩ := Fintype.exists_ne_map_eq_of_card_lt f (by simp)
  have hval : (chainFrom w (i.val + 1) cur).getD 0 = (chainFrom w (j.val + 1) cur).getD 0 :=
    congrArg Fin.val hf
  obtain ⟨p, hp⟩ := hall (i.val + 1) (by omega)
  obtain ⟨q, hq⟩ := hall (j.val + 1) (by omega)
  rw [hp, hq] at hval
  simp only [Option.getD_some] at hval
  subst hval
  have key : ∀ a b : Nat, a < b → chainFrom w (a + 1) cur = some p →
      chainFrom w (b + 1) cur = some p → False := by
    intro a b hab ha hb
    obtain ⟨d, hd⟩ : ∃ d, b + 1 = (a + 1) + (d + 1) := ⟨b - a - 1, by omega⟩
    rw [hd, chainFrom_add, ha] at hb
    exact hw p (transGen_of_chain w d p p hb)
  have hne : i.val ≠ j.val := fun h => hij (Fin.ext h)
  rcases Nat.lt_or_gt_of_ne hne with h | h
  · exact key _ _ h hp hq
  · exact key _ _ h hq hp

/-- In an acyclic graph the loop has returned once it was given `zones.length + 2`
units of fuel. -/
theorem loop_returns (w : World) (hw : Acyclic w) (zone : ZonePtr) (fuel : Nat)
    (hf : w.zones.length + 2 ≤ fuel) (cur : Option ZonePtr) :
    Zone.IsChildOfLoop w zone fuel cur ≠ none := by
  intro h
  rw [loop_none_iff] at h
  obtain ⟨k, hk, hnone⟩ := chain_ends w hw cur
  obtain ⟨p, hp, _⟩ := h k (by omega)
  rw [hnone] at hp
  simp at hp

/-- A rank that every parent link lowers shows that the graph is acyclic. -/
theorem acyclic_of_rank (w : World) (rank : ZonePtr → Nat)
    (h : ∀ a p, Zone.GetParent w a = some p → rank p < rank a) : Acyclic w := by
  have hlt : ∀ a b, Relation.TransGen (ParentLink w) a b → rank b < rank a := by
    intro a b hab
    induction hab with
    | single h1 => exact h _ _ h1
    | tail _ h2 ih => exact lt_trans (h _ _ h2) ih
  intro z hz
  exact lt_irrefl _ (hlt z z hz)

theorem scenario1_acyclic : Acyclic scenario1 := by
  refine acyclic_of_rank scenario1 id ?_
  intro a p h
  match a, h with
  | 0, h =>
    have h2 : Zone.GetParent scenario1 0 = none := by decide
    rw [h2] at h
    exact absurd h (by simp)
  | 1, h =>
    have : p = 0 := by
      have h2 : Zone.GetParent scenario1 1 = some 0 := by decide
      rw [h2] at h
      exact (Option.some.inj h).symm
    subst this
    decide
  | 2, h =>
    have : p = 1 := by
      have h2 : Zone.GetParent scenario1 2 = some 1 := by decide
      rw [h2] at h
      exact (Option.some.inj h).symm
    subst this
    decide
  | n + 3, h =>
    simp [Zone.GetParent, scenario1] at h

theorem chainFrom_after_end (w : World) (k j : Nat) (cur : Option ZonePtr)
    (h : chainFrom w k cur = none) (hkj : k ≤ j) : chainFrom w j cur = none := by
  obtain ⟨d, rfl⟩ := Nat.exists_eq_add_of_le hkj
  rw [chainFrom_add, h, chainFrom_none]

/-- The loop result does not change when more fuel is given. -/
theorem loop_mono (w : World) (zone : ZonePtr) (f g : Nat) (cur : Option ZonePtr) (b : Bool)
    (hfg : f ≤ g) (h : Zone.IsChildOfLoop w zone f cur = some b) :
    Zone.IsChildOfLoop w zone g cur = some b := by
  cases b with
  | true =>
    rw [loop_true_iff] at h ⊢
    obtain ⟨k, hk, hz⟩ := h
    exact ⟨k, by omega, hz⟩
  | false =>
    rw [loop_false_iff] at h ⊢
    obtain ⟨⟨k, hk, hz⟩, hall⟩ := h
    exact ⟨⟨k, by omega, hz⟩, hall⟩

/-- A chain that never ends and never meets the target keeps the loop running. -/
theorem loop_never_returns (w : World) (self zone : ZonePtr) :
    (∀ fuel, Zone.IsChildOf w fuel self zone = none) ↔
      ∀ k, ∃ p, visited w self k = some p ∧ p ≠ zone := by
  constructor
  · intro h k
    have := (loop_none_iff w zone (k + 1) (some self)).1 (h (k + 1)) k (by omega)
    exact this
  · intro h fuel
    exact (loop_none_iff w zone fuel (some self)).2 (fun k _ => h k)

theorem cyclicWorld_chain (k : Nat) :
    visited cyclicWorld 0 k = some 0 ∨ visited cyclicWorld 0 k = some 1 := by
  induction k with
  | zero => exact Or.inl rfl
  | succ k ih =>
    unfold visited at ih ⊢
    rw [chainFrom_succ_last]
    rcases ih with h | h
    · rw [h]
      exact Or.inr (by decide)
    · rw [h]
      exact Or.inl (by decide)

/-! ## Zone graph: the claims -/

/-- C7: in a finite zone graph in which no zone is its own ancestor the walk of
`Zone::IsChildOf` terminates for every pair of zones, within `zones.length + 2` loop
tests: it returns `true` or `false`; it returns `true` exactly when the target is among
the zones visited (the candidate, its resolved parent, and so on), and then at the first
visited zone identical to the target, not before; it returns `false` exactly when the
chain reaches, without meeting the target, a zone whose parent lookup yields nothing. -/
theorem IsChildOf_terminates (w : World) (hw : Acyclic w) (self zone : ZonePtr) (fuel : Nat)
    (hf : w.zones.length + 2 ≤ fuel) :
    (Zone.IsChildOf w fuel self zone = some true ∨
      Zone.IsChildOf w fuel self zone = some false) ∧
    (Zone.IsChildOf w fuel self zone = some true ↔ ∃ k, visited w self k = some zone) ∧
    (Zone.IsChildOf w fuel self zone = some false ↔
      ∃ k z, visited w self k = some z ∧ Zone.GetParent w z = none ∧
        ∀ j, j ≤ k → visited w self j ≠ some zone) ∧
    (∀ k, visited w self k = some zone → (∀ j, j < k → visited w self j ≠ some zone) →
      Zone.IsChildOf w (k + 1) self zone = some true ∧
        ∀ f, f ≤ k → Zone.IsChildOf w f self zone = none) := by
  have hret := loop_returns w hw zone fuel hf (some self)
  have hcases : Zone.IsChildOf w fuel self zone = some true ∨
      Zone.IsChildOf w fuel self zone = some false := by
    unfold Zone.IsChildOf
    cases hres : Zone.IsChildOfLoop w zone fuel (some self) with
    | none => exact absurd hres hret
    | some b => cases b <;> simp
  have htrue : Zone.IsChildOf w fuel self zone = some true ↔
      ∃ k, visited w self k = some zone := by
    constructor
    · intro h
      obtain ⟨k, _, hk⟩ := (loop_true_iff w zone fuel (some self)).1 h
      exact ⟨k, hk⟩
    · rintro ⟨k, hk⟩
      rcases hcases with h | h
      · exact h
      · exact absurd hk (((loop_false_iff w zone fuel (some self)).1 h).2 k)
  refine ⟨hcases, htrue, ?_, ?_⟩
  · constructor
    · intro h
      obtain ⟨hex, hall⟩ := (loop_false_iff w zone fuel (some self)).1 h
      have hex2 : ∃ k, chainFrom w k (some self) = none := by
        obtain ⟨k, _, hk⟩ := hex
        exact ⟨k, hk⟩
      classical
      have hmin := Nat.find_spec hex2
      have hbefore := fun m (hm : m < Nat.find hex2) => Nat.find_min hex2 hm
      cases hn : Nat.find hex2 with
      | zero =>
        rw [hn] at hmin
        simp [chainFrom] at hmin
      | succ n =>
        rw [hn] at hmin
        have hprev := hbefore n (by omega)
        cases hc : chainFrom w n (some self) with
        | none => exact absurd hc hprev
        | some z =>
          rw [chainFrom_succ_last, hc] at hmin
          exact ⟨n, z, hc, hmin, fun j _ => hall j⟩
    · rintro ⟨k, z, hk, hpar, hall⟩
      rcases hcases with h | h
      · exfalso
        obtain ⟨m, hm⟩ := htrue.1 h
        have hend : chainFrom w (k + 1) (some self) = none := by
          rw [chainFrom_succ_last]
          unfold visited at hk
          rw [hk]
          exact hpar
        by_cases hmk : m ≤ k
        · exact hall m hmk hm
        · have := chainFrom_after_end w (k + 1) m (some self) hend (by omega)
          unfold visited at hm
          rw [this] at hm
          simp at hm
      · exact h
  · intro k hk hfirst
    refine ⟨(loop_true_iff w zone (k + 1) (some self)).2 ⟨k, by omega, hk⟩, ?_⟩
    intro f hfk
    refine (loop_none_iff w zone f (some self)).2 ?_
    intro j hj
    obtain ⟨q, hq⟩ := chainFrom_some_of_le w j k (some self) zone (by omega) hk
    refine ⟨q, hq, ?_⟩
    intro hqz
    subst hqz
    exact hfirst j (by omega) hq

/-- Witness of C7 on scenario 1: the walk from `host-1` (2) towards `global` (0). -/
theorem IsChildOf_terminates_witness :
    Acyclic scenario1 ∧ scenario1.zones.length + 2 ≤ 5 ∧
    (Zone.IsChildOf scenario1 5 2 0 = some true ∨
      Zone.IsChildOf scenario1 5 2 0 = some false) :=
  ⟨scenario1_acyclic, by decide,
    (IsChildOf_terminates scenario1 scenario1_acyclic 2 0 5 (by decide)).1⟩

/-- C1: on a zone graph with acyclic parent chains, `Zone::CanAccessObject` called on `Z`
with `obj` returns, and it returns `true` if and only if the owning zone of `obj` is `Z`
itself or a descendant of `Z` (`Z` is reached from it by following parent links); the
owning zone is `obj` itself when `obj` is a zone, otherwise the zone named by its zone
attribute, and the local zone when that name resolves to nothing.  In scenario 1 an
object owned by `host-1` is accessible from `global` and an object owned by `global` is
not accessible from `host-1`. -/
theorem CanAccessObject_iff_descendant (w : World) (hw : Acyclic w) (Z : ZonePtr)
    (obj : DynamicObject) (fuel : Nat) (hf : w.zones.length + 2 ≤ fuel) :
    (∃ b, Zone.CanAccessObject w fuel Z obj = some b ∧
      (b = true ↔ (owningZone w obj = Z ∨
        Relation.TransGen (ParentLink w) (owningZone w obj) Z))) ∧
    Zone.CanAccessObject scenario1 5 0 (.other "host-1") = some true ∧
    Zone.CanAccessObject scenario1 5 2 (.other "global") = some false := by
  refine ⟨?_, by decide, by decide⟩
  have hown : Zone.CanAccessObject w fuel Z obj = Zone.IsChildOf w fuel (owningZone w obj) Z := by
    unfold Zone.CanAccessObject owningZone Zone.GetLocalZone
    cases obj with
    | zone p => rfl
    | other a => cases hl : Zone.GetByName w a <;> simp [hl]
  have hdesc : (owningZone w obj = Z ∨ Relation.TransGen (ParentLink w) (owningZone w obj) Z) ↔
      ∃ k, chainFrom w k (some (owningZone w obj)) = some Z := by
    rw [← descendsFrom_iff_chain]
    unfold DescendsFrom
    rw [Relation.reflTransGen_iff_eq_or_transGen]
    constructor
    · rintro (h | h)
      · exact Or.inl h.symm
      · exact Or.inr h
    · rintro (h | h)
      · exact Or.inl h.symm
      · exact Or.inr h
  rw [hown, hdesc]
  have hret := loop_returns w hw Z fuel hf (some (owningZone w obj))
  unfold Zone.IsChildOf
  cases hres : Zone.IsChildOfLoop w Z fuel (some (owningZone w obj)) with
  | none => exact absurd hres hret
  | some b =>
    refine ⟨b, rfl, ?_⟩
    cases b with
    | true =>
      obtain ⟨k, _, hk⟩ := (loop_true_iff w Z fuel _).1 hres
      simp only [true_iff]
      exact ⟨k, hk⟩
    | false =>
      have hall := ((loop_false_iff w Z fuel _).1 hres).2
      simp only [Bool.false_eq_true, false_iff, not_exists]
      exact hall

/-- Witness of C1 on scenario 1: `global` (0) asks for an object whose zone attribute
names `host-1`. -/
theorem CanAccessObject_iff_descendant_witness :
    Acyclic scenario1 ∧ scenario1.zones.length + 2 ≤ 5 ∧
    ∃ b, Zone.CanAccessObject scenario1 5 0 (.other "host-1") = some b ∧
      (b = true ↔ (owningZone scenario1 (.other "host-1") = 0 ∨
        Relation.TransGen (ParentLink scenario1) (owningZone scenario1 (.other "host-1")) 0)) :=
  ⟨scenario1_acyclic, by decide,
    (CanAccessObject_iff_descendant scenario1 scenario1_acyclic 0 (.other "host-1") 5
      (by decide)).1⟩

/-- C2: the ancestry walk is transitive: when `B->IsChildOf(A)` returns `true` and
`C->IsChildOf(B)` returns `true`, then `C->IsChildOf(A)` returns `true` (as soon as the
loop may run as long as the two given walks together).  This holds on every zone graph,
so in particular on those with acyclic parent chains. -/
theorem IsChildOf_trans (w : World) (A B C : ZonePtr) (f₁ f₂ : Nat)
    (hBA : Zone.IsChildOf w f₁ B A = some true) (hCB : Zone.IsChildOf w f₂ C B = some true) :
    ∀ fuel, f₁ + f₂ ≤ fuel → Zone.IsChildOf w fuel C A = some true := by
  intro fuel hfuel
  obtain ⟨k₁, hk₁, h₁⟩ := (loop_true_iff w A f₁ (some B)).1 hBA
  obtain ⟨k₂, hk₂, h₂⟩ := (loop_true_iff w B f₂ (some C)).1 hCB
  refine (loop_true_iff w A fuel (some C)).2 ⟨k₂ + k₁, by omega, ?_⟩
  rw [chainFrom_add, h₂, h₁]

/-- Witness of C2 on scenario 1: `A = global`, `B = region-a`, `C = host-1`. -/
theorem IsChildOf_trans_witness :
    Zone.IsChildOf scenario1 5 1 0 = some true ∧ Zone.IsChildOf scenario1 5 2 1 = some true ∧
    Zone.IsChildOf scenario1 10 2 0 = some true :=
  ⟨by decide, by decide,
    IsChildOf_trans scenario1 0 1 2 5 5 (by decide) (by decide) 10 (by decide)⟩

/-- C6, the code at the failing input: the zone has the member names `"a"` and `"ghost"`,
only `"a"` is a registered endpoint, and `Zone::GetEndpoints` returns the endpoint
together with a null pointer. -/
theorem GetEndpoints_inserts_null :
    Endpoint.GetByName ghostWorld "ghost" = none ∧
    Zone.GetEndpoints ghostWorld 0 = {none, some 0} ∧
    none ∈ Zone.GetEndpoints ghostWorld 0 := by
  decide

/-- C8, counterexample: on the cycle `a → b → a`, which does not contain `t`, the walk
from `a` towards `t` never returns, whatever number of loop tests it is given: it reports
neither a fault nor `false`. -/
theorem IsChildOf_cycle_never_returns :
    ¬ ∃ fuel r, Zone.IsChildOf cyclicWorld fuel 0 2 = some r := by
  rintro ⟨fuel, r, h⟩
  have hnone : ∀ fuel, Zone.IsChildOf cyclicWorld fuel 0 2 = none := by
    refine (loop_never_returns cyclicWorld 0 2).2 ?_
    intro k
    rcases cyclicWorld_chain k with hk | hk
    · exact ⟨0, hk, by decide⟩
    · exact ⟨1, hk, by decide⟩
  rw [hnone fuel] at h
  simp at h

/-- C8, amended: `Zone::IsChildOf` imposes no depth bound and has no fault result.  The
walk never returns, whatever number of loop tests it is given, exactly when the parent
chain from the candidate never ends and never meets the target (as on a cyclic chain
that does not contain the target).  On every chain that meets the target it returns the
ordinary `true`, and on every chain that ends without meeting the target it returns the
ordinary `false`, in both cases as soon as the loop may run one test beyond that point
of the chain. -/
theorem IsChildOf_no_depth_bound (w : World) (self zone : ZonePtr) :
    ((∀ fuel, Zone.IsChildOf w fuel self zone = none) ↔
      ∀ k, ∃ p, visited w self k = some p ∧ p ≠ zone) ∧
    (∀ k, visited w self k = some zone →
      ∀ fuel, k < fuel → Zone.IsChildOf w fuel self zone = some true) ∧
    (∀ k, visited w self k = none → (∀ j, visited w self j ≠ some zone) →
      ∀ fuel, k < fuel → Zone.IsChildOf w fuel self zone = some false) := by
  refine ⟨loop_never_returns w self zone, ?_, ?_⟩
  · intro k hk fuel hfuel
    exact (loop_true_iff w zone fuel (some self)).2 ⟨k, hfuel, hk⟩
  · intro k hk hall fuel hfuel
    exact (loop_false_iff w zone fuel (some self)).2 ⟨⟨k, hfuel, hk⟩, hall⟩

/-- Witness of the amended C8: on the cycle `a → b → a` with target `t` the walk never
returns; in scenario 1 the walk from `host-1` meets `global` after two parent steps and
returns `true`, and the walk from `global` towards `host-1` ends after one step and
returns `false`. -/
theorem IsChildOf_no_depth_bound_witness :
    (∀ k, ∃ p, visited cyclicWorld 0 k = some p ∧ p ≠ 2) ∧
    (∀ fuel, Zone.IsChildOf cyclicWorld fuel 0 2 = none) ∧
    visited scenario1 2 2 = some 0 ∧
    Zone.IsChildOf scenario1 3 2 0 = some true ∧
    visited scenario1 0 1 = none ∧
    Zone.IsChildOf scenario1 2 0 2 = some false :=
  have hchain : ∀ k, ∃ p, visited cyclicWorld 0 k = some p ∧ p ≠ 2 := fun k =>
    (cyclicWorld_chain k).elim (fun h => ⟨0, h, by decide⟩) (fun h => ⟨1, h, by decide⟩)
  have hnever : ∀ j, visited scenario1 0 j ≠ some 2 := fun j => by
    cases j with
    | zero => decide
    | succ j =>
      have hend : chainFrom scenario1 1 (some 0) = none := by decide
      have := chainFrom_after_end scenario1 1 (j + 1) (some 0) hend (by omega)
      unfold visited
      rw [this]
      simp
  ⟨hchain, (IsChildOf_no_depth_bound cyclicWorld 0 2).1.2 hchain, by decide,
    (IsChildOf_no_depth_bound scenario1 2 0).2.1 2 (by decide) 3 (by decide), by decide,
    (IsChildOf_no_depth_bound scenario1 0 2).2.2 1 (by decide) hnever 2 (by decide)⟩

/-! ## TLS client: lemmas -/

@[simp] theorem emit_log (c : TLSClient) (es : List Effect) : (c.emit es).log = c.log ++ es := rfl

@[simp] theorem emit_blockRead (c : TLSClient) (es : List Effect) :
    (c.emit es).m_BlockRead = c.m_BlockRead := rfl

@[simp] theorem emit_blockWrite (c : TLSClient) (es : List Effect) :
    (c.emit es).m_BlockWrite = c.m_BlockWrite := rfl

@[simp] theorem Close_log (c : TLSClient) :
    c.Close.log = c.log ++ [.SSL_shutdown, .TCPClient_CloseInternal false] := rfl

@[simp] theorem Close_blockRead (c : TLSClient) : c.Close.m_BlockRead = c.m_BlockRead := rfl

@[simp] theorem Close_blockWrite (c : TLSClient) : c.Close.m_BlockWrite = c.m_BlockWrite := rfl

theorem HandleSSLError_log (format : Int → String) (r : EngineResult) (c : TLSClient) :
    (c.HandleSSLError format r).log =
      c.log ++ (if toInt32 r.ERR_get_error ≠ 0 then
        [Effect.OnError (toInt32 r.ERR_get_error) (format (toInt32 r.ERR_get_error))]
        else []) ++ [.SSL_shutdown, .TCPClient_CloseInternal false] := by
  unfold TLSClient.HandleSSLError
  by_cases h : toInt32 r.ERR_get_error = 0 <;> simp [h]

@[simp] theorem HandleSSLError_blockRead (format : Int → String) (r : EngineResult)
    (c : TLSClient) : (c.HandleSSLError format r).m_BlockRead = c.m_BlockRead := by
  unfold TLSClient.HandleSSLError
  by_cases h : toInt32 r.ERR_get_error = 0 <;> simp [h]

@[simp] theorem HandleSSLError_blockWrite (format : Int → String) (r : EngineResult)
    (c : TLSClient) : (c.HandleSSLError format r).m_BlockWrite = c.m_BlockWrite := by
  unfold TLSClient.HandleSSLError
  by_cases h : toInt32 r.ERR_get_error = 0 <;> simp [h]

/-- The flags a readable callback leaves depend on the library result alone. -/
theorem Readable_flags (format : Int → String) (r : EngineResult) (c : TLSClient) :
    (c.ReadableEventHandler format r).m_BlockRead =
        decide (r.rc ≤ 0 ∧ r.SSL_get_error = SSL_ERROR_WANT_WRITE) ∧
      (c.ReadableEventHandler format r).m_BlockWrite = false := by
  simp only [TLSClient.ReadableEventHandler]
  by_cases hrc : r.rc ≤ 0
  · rw [if_pos hrc]
    by_cases h1 : r.SSL_get_error = SSL_ERROR_WANT_WRITE
    · rw [if_pos h1]
      simp [hrc, h1]
    · rw [if_neg h1]
      by_cases h2 : r.SSL_get_error = SSL_ERROR_WANT_READ
      · rw [if_pos h2]
        simp [hrc, h1]
      · rw [if_neg h2]
        by_cases h3 : r.SSL_get_error = SSL_ERROR_ZERO_RETURN
        · rw [if_pos h3]
          simp [hrc, h1]
        · rw [if_neg h3]
          simp [hrc, h1]
  · rw [if_neg hrc]
    simp [hrc]

/-- The flags a writable callback leaves depend on the library result alone. -/
theorem Writable_flags (format : Int → String) (r : EngineResult) (c : TLSClient) :
    (c.WritableEventHandler format r).m_BlockRead = false ∧
      (c.WritableEventHandler format r).m_BlockWrite =
        decide (r.rc ≤ 0 ∧ r.SSL_get_error = SSL_ERROR_WANT_READ) := by
  simp only [TLSClient.WritableEventHandler]
  by_cases hrc : r.rc ≤ 0
  · rw [if_pos hrc]
    by_cases h1 : r.SSL_get_error = SSL_ERROR_WANT_READ
    · rw [if_pos h1]
      simp [hrc, h1]
    · rw [if_neg h1]
      by_cases h2 : r.SSL_get_error = SSL_ERROR_WANT_WRITE
      · rw [if_pos h2]
        simp [hrc, h1]
      · rw [if_neg h2]
        by_cases h3 : r.SSL_get_error = SSL_ERROR_ZERO_RETURN
        · rw [if_pos h3]
          simp [hrc, h1]
        · rw [if_neg h3]
          simp [hrc, h1]
  · rw [if_neg hrc]
    simp [hrc]

theorem step_not_both (format : Int → String) (c : TLSClient) (cb : Callback) :
    ¬ ((c.step format cb).m_BlockRead = true ∧ (c.step format cb).m_BlockWrite = true) := by
  cases cb with
  | readable r =>
    have h := Readable_flags format r c
    simp only [TLSClient.step]
    rw [h.2]
    simp
  | writable r =>
    have h := Writable_flags format r c
    simp only [TLSClient.step]
    rw [h.1]
    simp

theorem run_append_one (format : Int → String) (c : TLSClient) (cbs : List Callback)
    (cb : Callback) :
    TLSClient.run format c (cbs ++ [cb]) = (TLSClient.run format c cbs).step format cb := by
  simp [TLSClient.run, List.foldl_append]

/-! ## TLS client: the claims -/

/-- C3: `TLSClient::SSLVerifyCertificate` returns 0 for every pre-check value, and raises
no event, when no session is registered for the protocol context; otherwise it raises
exactly one verification event, with the outcome initialised to `ok != 0`, and returns
the outcome the observer left in the event, 1 for accept and 0 for reject.  With a failed
pre-check (`ok = 0`) it returns reject exactly when the observer leaves the outcome as it
was. -/
theorem SSLVerifyCertificate_decision (client : ClientPtr)
    (observer : VerifyCertificateEventArgs → VerifyCertificateEventArgs)
    (ok : Int) (x509Context : X509_STORE_CTX) :
    TLSClient.SSLVerifyCertificate none observer ok x509Context = (0, []) ∧
    (TLSClient.SSLVerifyCertificate (some client) observer ok x509Context).2 =
      [{ Source := client, ValidCertificate := decide (ok ≠ 0),
         Certificate := x509Context.cert }] ∧
    ((TLSClient.SSLVerifyCertificate (some client) observer ok x509Context).1 = 1 ↔
      (observer { Source := client, ValidCertificate := decide (ok ≠ 0),
                  Certificate := x509Context.cert }).ValidCertificate = true) ∧
    ((TLSClient.SSLVerifyCertificate (some client) observer ok x509Context).1 = 0 ↔
      (observer { Source := client, ValidCertificate := decide (ok ≠ 0),
                  Certificate := x509Context.cert }).ValidCertificate = false) ∧
    ((TLSClient.SSLVerifyCertificate (some client) observer 0 x509Context).1 = 0 ↔
      (observer { Source := client, ValidCertificate := false,
                  Certificate := x509Context.cert }).ValidCertificate = false) ∧
    (TLSClient.SSLVerifyCertificate (some client) id 0 x509Context).1 = 0 := by
  have hbool : ∀ b : Bool,
      ((if b = true then (1 : Int) else 0) = 1 ↔ b = true) ∧
      ((if b = true then (1 : Int) else 0) = 0 ↔ b = false) := by
    intro b
    cases b <;> simp
  refine ⟨rfl, rfl, ?_, ?_, ?_, ?_⟩
  · exact (hbool _).1
  · exact (hbool _).2
  · exact (hbool _).2
  · rfl

/-- C5, counterexample: a read attempt fails with `SSL_ERROR_SYSCALL`, which is none of
would-block-on-read, would-block-on-write, peer-closed-cleanly, while the error stack of
the library is empty (`ERR_get_error()` returns 0): the session is closed and no error
event is raised. -/
theorem HandleSSLError_empty_stack_no_event :
    SSL_ERROR_SYSCALL ≠ SSL_ERROR_WANT_READ ∧ SSL_ERROR_SYSCALL ≠ SSL_ERROR_WANT_WRITE ∧
    SSL_ERROR_SYSCALL ≠ SSL_ERROR_ZERO_RETURN ∧
    (TLSClient.ReadableEventHandler sampleFormat ⟨-1, SSL_ERROR_SYSCALL, 0⟩
      (TLSClient.new .RoleInbound 0)).log =
        [.SSL_read, .SSL_shutdown, .TCPClient_CloseInternal false] ∧
    (TLSClient.WritableEventHandler sampleFormat ⟨-1, SSL_ERROR_SYSCALL, 0⟩
      (TLSClient.new .RoleInbound 0)).log =
        [.SSL_write, .SSL_shutdown, .TCPClient_CloseInternal false] := by
  decide

/-- C5, amended: whenever a read or write attempt in `ReadableEventHandler` or
`WritableEventHandler` fails with a TLS error code other than would-block-on-read,
would-block-on-write and peer-closed-cleanly, the handler takes the code on top of the
library's error stack; when that code is not 0 an error event carrying the code and
its decoded message is raised, when it is 0 no error event is raised; in both cases the
session is then closed. -/
theorem HandleSSLError_event_then_close (format : Int → String) (r : EngineResult)
    (c : TLSClient) (hrc : r.rc ≤ 0)
    (hr : r.SSL_get_error ≠ SSL_ERROR_WANT_READ)
    (hw : r.SSL_get_error ≠ SSL_ERROR_WANT_WRITE)
    (hz : r.SSL_get_error ≠ SSL_ERROR_ZERO_RETURN) :
    (c.ReadableEventHandler format r).log =
      c.log ++ [.SSL_read] ++ (if toInt32 r.ERR_get_error ≠ 0 then
        [Effect.OnError (toInt32 r.ERR_get_error) (format (toInt32 r.ERR_get_error))]
        else []) ++ [.SSL_shutdown, .TCPClient_CloseInternal false] ∧
    (c.WritableEventHandler format r).log =
      c.log ++ [.SSL_write] ++ (if toInt32 r.ERR_get_error ≠ 0 then
        [Effect.OnError (toInt32 r.ERR_get_error) (format (toInt32 r.ERR_get_error))]
        else []) ++ [.SSL_shutdown, .TCPClient_CloseInternal false] := by
  constructor
  · simp only [TLSClient.ReadableEventHandler, hrc, hr, hw, hz, if_true, if_false]
    rw [HandleSSLError_log]
    rfl
  · simp only [TLSClient.WritableEventHandler, hrc, hr, hw, hz, if_true, if_false]
    rw [HandleSSLError_log]
    rfl

/-- Witness of the amended C5: a failed read with `SSL_ERROR_SYSCALL` and the code 336151576
on the error stack. -/
theorem HandleSSLError_event_then_close_witness :
    (TLSClient.ReadableEventHandler sampleFormat ⟨-1, SSL_ERROR_SYSCALL, 336151576⟩
      (TLSClient.new .RoleInbound 0)).log =
      [] ++ [.SSL_read] ++ (if toInt32 336151576 ≠ 0 then
        [Effect.OnError (toInt32 336151576) (sampleFormat (toInt32 336151576))]
        else []) ++ [.SSL_shutdown, .TCPClient_CloseInternal false] :=
  (HandleSSLError_event_then_close sampleFormat ⟨-1, SSL_ERROR_SYSCALL, 336151576⟩
    (TLSClient.new .RoleInbound 0) (by decide) (by decide) (by decide) (by decide)).1

/-- C9: in every state reached from a newly constructed `TLSClient` by any sequence of
`ReadableEventHandler` and `WritableEventHandler` calls with any results of the TLS
library, `m_BlockRead` and `m_BlockWrite` are not both set.  Each handler clears both
flags before its attempt: the flags it leaves are determined by the result of this
attempt alone, whatever they were before. -/
theorem block_flags_exclusive (format : Int → String) (role : TCPClientRole)
    (sslContext : Nat) (cbs : List Callback) :
    ¬ ((TLSClient.run format (TLSClient.new role sslContext) cbs).m_BlockRead = true ∧
       (TLSClient.run format (TLSClient.new role sslContext) cbs).m_BlockWrite = true) ∧
    (∀ (c : TLSClient) (r : EngineResult),
      (c.ReadableEventHandler format r).m_BlockRead =
        decide (r.rc ≤ 0 ∧ r.SSL_get_error = SSL_ERROR_WANT_WRITE) ∧
      (c.ReadableEventHandler format r).m_BlockWrite = false ∧
      (c.WritableEventHandler format r).m_BlockRead = false ∧
      (c.WritableEventHandler format r).m_BlockWrite =
        decide (r.rc ≤ 0 ∧ r.SSL_get_error = SSL_ERROR_WANT_READ)) := by
  constructor
  · induction cbs using List.reverseRecOn with
    | nil => simp [TLSClient.run, TLSClient.new]
    | append_singleton cbs cb _ =>
      rw [run_append_one]
      exact step_not_both format _ cb
  · intro c r
    exact ⟨(Readable_flags format r c).1, (Readable_flags format r c).2,
      (Writable_flags format r c).1, (Writable_flags format r c).2⟩

/-- C10: when `TLSClient::Start` is called on a session whose protocol context carries no
local certificate, it throws the invalid-argument exception "No X509 client certificate
was specified.", whatever the role.  On that path the only effects are the base
`TCPClient::Start()` and the allocation of the protocol context: no index is registered,
no verification callback installed, the socket is not attached, no handshake direction is
set and no handshake step attempted; the static members and the flags are untouched. -/
theorem Start_without_certificate (env : StartEnv) (st : Statics) (c : TLSClient) (ssl : SSL)
    (hnew : env.SSL_new = some ssl) (hcert : ssl.certificate = none) :
    TLSClient.Start env st c =
      (some (.InvalidArgumentException "No X509 client certificate was specified."), st,
        { c with m_SSL := some ssl, log := c.log ++ [.TCPClient_Start, .SSL_new] }) := by
  simp [TLSClient.Start, TLSClient.emit, TLSClient.GetClientCertificate, hnew, hcert]

/-- Witness of C10 for an inbound and an outbound session on a context without
certificate. -/
theorem Start_without_certificate_witness :
    TLSClient.Start ⟨some ⟨none⟩, 0, 0, 7⟩ ⟨0, false⟩ (TLSClient.new .RoleInbound 0) =
      (some (.InvalidArgumentException "No X509 client certificate was specified."),
        ⟨0, false⟩,
        { TLSClient.new .RoleInbound 0 with
          m_SSL := some ⟨none⟩, log := [] ++ [.TCPClient_Start, .SSL_new] }) ∧
    TLSClient.Start ⟨some ⟨none⟩, 0, 0, 7⟩ ⟨0, false⟩ (TLSClient.new .RoleOutbound 0) =
      (some (.InvalidArgumentException "No X509 client certificate was specified."),
        ⟨0, false⟩,
        { TLSClient.new .RoleOutbound 0 with
          m_SSL := some ⟨none⟩, log := [] ++ [.TCPClient_Start, .SSL_new] }) :=
  ⟨Start_without_certificate ⟨some ⟨none⟩, 0, 0, 7⟩ ⟨0, false⟩ (TLSClient.new .RoleInbound 0)
      ⟨none⟩ rfl rfl,
    Start_without_certificate ⟨some ⟨none⟩, 0, 0, 7⟩ ⟨0, false⟩ (TLSClient.new .RoleOutbound 0)
      ⟨none⟩ rfl rfl⟩

end Icinga
